import Mathlib

/-!
Verification development for the tamagotchi MD analyzer page
(`src/pages/3_📊_MD_analyzer.py`).

The page is a linear script: the sidebar resolves a Selection of three
input files (`.xyz` trajectory, `.mol2` topology, `.pbc` box), `create_u`
builds the molecular system, and four independent metric blocks (RDF,
linear density, MSD/diffusivity, dielectric) each build the system, run
the analysis on first use or on an explicit recalculate trigger, cache the
result in session state, and render it.  The definitions below embed that
script shallowly: file contents are abstracted to their parse outcomes,
machine floats are modelled as exact rationals, and the external analysis
library's routines that claims depend on (Einstein MSD, LinearDensity bin
layout, InterRDF exclusion blocks, the slider widget, scipy linregress)
are modelled from their documented contracts where the spec relies on
them.
-/

namespace Tamagotchi

/-- The sidebar's Selection triple: paths of the chosen trajectory, topology
and box files.  A component is `none` when no file with the extension was
found, in which case the selectbox yields no selection. -/
structure Selection where
  xyz : Option String
  mol2 : Option String
  pbc : Option String
deriving DecidableEq

/-- The in-memory molecular system produced by `create_u`: the loaded
topology and trajectory plus the box `dimensions` list
`[L, L, L, 90, 90, 90]`. -/
structure Universe where
  topology : String
  trajectory : String
  dimensions : List ℚ
deriving DecidableEq

/-- Failure modes of the script: a selection component missing (the library
call receives `None` and raises), or a box file whose content `float()`
cannot parse. -/
inductive Err where
  | missingSelection
  | malformedBox
deriving DecidableEq

/-- Embeds `create_u`: builds a `Universe` from the three selections, reads a
single scalar cube-edge length from the pbc file and sets a cubic cell with
all angles at 90°.  `readBox` maps a pbc path to the outcome of
`float(f.read())` on that file's content (`none` models a parse failure). -/
def create_u (readBox : String → Option ℚ) (sel : Selection) : Except Err Universe :=
  match sel.mol2, sel.xyz, sel.pbc with
  | some topo, some xyz, some pbc =>
      match readBox pbc with
      | some boxSide => .ok ⟨topo, xyz, [boxSide, boxSide, boxSide, 90, 90, 90]⟩
      | none => .error .malformedBox
  | _, _, _ => .error .missingSelection

/-- Symbolic atom selections appearing in the script
(`u.atoms`, `"not resid 201"`, `name O`). -/
inductive AtomSel where
  | allAtoms
  | excludeResid (n : ℕ)
  | nameO
deriving DecidableEq

/-- Compound argument of the wrap transformation. -/
inductive Compound where
  | residues
deriving DecidableEq

/-- Trajectory transformations used by the RDF block. -/
inductive Transform where
  | unwrap (g : AtomSel)
  | wrap (g : AtomSel) (c : Compound)
deriving DecidableEq

/-- Embeds `water = u.select_atoms("not resid 201")`. -/
def water : AtomSel := .excludeResid 201

/-- Embeds the `workflow` list added to the trajectory before the RDF run:
unwrap all atoms, then wrap the subset excluding residue 201 by residues. -/
def rdfWorkflow : List Transform := [.unwrap .allAtoms, .wrap water .residues]

/-- Parameters of the `InterRDF` call. -/
structure InterRDFParams where
  g1 : AtomSel
  g2 : AtomSel
  nbins : ℕ
  rangeLo : ℚ
  rangeHi : ℚ
  exclusion_block : ℕ × ℕ
deriving DecidableEq

/-- Embeds the `InterRDF(...)` construction of the RDF block: O–O pairs,
500 bins over [2.0, 9.0] Å, exclusion block (1, 1). -/
def rdfParams : InterRDFParams :=
  { g1 := .nameO
    g2 := .nameO
    nbins := 500
    rangeLo := 2
    rangeHi := 9
    exclusion_block := (1, 1) }

/-- Modelled from the spec: the analysis library's `exclusion_block = (p, q)`
masks the pair of atoms (i, j) exactly when atom i's block index `i / p`
equals atom j's block index `j / q`, so that pairs inside the same block are
not counted. -/
def excludedPair (blk : ℕ × ℕ) (i j : ℕ) : Bool := i / blk.1 == j / blk.2

/-- C9: `create_u` is a deterministic function of the selected files —
applying it twice to the same Selection gives identical System state — and
it reads a single scalar L from the box file and sets the cubic cell
[L, L, L, 90, 90, 90]. -/
theorem create_u_deterministic_cubic (readBox : String → Option ℚ) (sel : Selection)
    (topo xyz pbc : String) (L : ℚ)
    (hx : sel.xyz = some xyz) (hm : sel.mol2 = some topo) (hp : sel.pbc = some pbc)
    (hL : readBox pbc = some L) :
    create_u readBox sel = create_u readBox sel ∧
    create_u readBox sel = .ok ⟨topo, xyz, [L, L, L, 90, 90, 90]⟩ := by
  refine ⟨rfl, ?_⟩
  simp [create_u, hx, hm, hp, hL]

/-- Witness for C9 at a concrete selection and box file holding 18.0. -/
theorem create_u_deterministic_cubic_witness :
    create_u (fun _ => some 18) ⟨some "traj.xyz", some "topo.mol2", some "box.pbc"⟩
      = create_u (fun _ => some 18) ⟨some "traj.xyz", some "topo.mol2", some "box.pbc"⟩ ∧
    create_u (fun _ => some 18) ⟨some "traj.xyz", some "topo.mol2", some "box.pbc"⟩
      = .ok ⟨"topo.mol2", "traj.xyz", [18, 18, 18, 90, 90, 90]⟩ :=
  create_u_deterministic_cubic (fun _ => some 18)
    ⟨some "traj.xyz", some "topo.mol2", some "box.pbc"⟩
    "topo.mol2" "traj.xyz" "box.pbc" 18 rfl rfl rfl rfl

/-- C8: the RDF block first unwraps all atoms (make molecules whole), then
wraps the subset excluding residue 201 by residue compound, and the RDF is
configured over O–O pairs with range [2.0, 9.0] Å, exactly 500 bins and
exclusion block (1, 1); under the library's exclusion-block semantics a
pair is excluded iff it is a self-pair. -/
theorem rdf_configuration :
    rdfWorkflow = [.unwrap .allAtoms, .wrap (.excludeResid 201) .residues] ∧
    rdfParams.g1 = .nameO ∧ rdfParams.g2 = .nameO ∧
    rdfParams.nbins = 500 ∧ rdfParams.rangeLo = 2 ∧ rdfParams.rangeHi = 9 ∧
    rdfParams.exclusion_block = (1, 1) ∧
    ∀ i j : ℕ, excludedPair rdfParams.exclusion_block i j = true ↔ i = j := by
  refine ⟨rfl, rfl, rfl, rfl, rfl, rfl, rfl, ?_⟩
  intro i j
  simp [excludedPair, rdfParams]

/-- Observable events of one metric block of the script: the `create_u()`
call (System build) and a `.run()` call of the metric's analysis object. -/
inductive Event where
  | buildSystem
  | runAnalysis
deriving DecidableEq

/-- Embeds one metric block of the script (`if <metric>_check:` down to the
session-state reads), generic over the metric's analysis `compute`.  When
the checkbox is off the block does nothing.  When it is on, the script
first calls `create_u()` (an error there aborts the run with session state
untouched), then runs and stores the analysis if no cached value exists,
then runs and stores it again if the recalculate button was pressed, and
finally reads the displayed value from the cache.  Returns the event trace
and, on success, the new cached value and the displayed value. -/
def metricStep {R : Type} (compute : Universe → R) (readBox : String → Option ℚ)
    (sel : Selection) (check recalc : Bool) (cache : Option R) :
    List Event × Except Err (Option R × Option R) :=
  if check then
    match create_u readBox sel with
    | .error e => ([Event.buildSystem], .error e)
    | .ok u =>
        let first : List Event × Option R :=
          match cache with
          | none => ([Event.runAnalysis], some (compute u))
          | some r => ([], some r)
        let second : List Event × Option R :=
          if recalc then ([Event.runAnalysis], some (compute u)) else ([], first.2)
        (Event.buildSystem :: (first.1 ++ second.1), .ok (second.2, second.2))
  else ([], .ok (cache, none))

/-- A sequence of script re-runs for one metric: each step carries that
run's Selection, checkbox state and recalculate-button state, threading the
metric's session-state slot through.  A run that raises leaves the slot
unchanged. -/
def runSeq {R : Type} (compute : Universe → R) (readBox : String → Option ℚ)
    (steps : List (Selection × Bool × Bool)) (cache : Option R) : Option R :=
  match steps with
  | [] => cache
  | (sel, check, recalc) :: rest =>
      match (metricStep compute readBox sel check recalc cache).2 with
      | .ok (c2, _) => runSeq compute readBox rest c2
      | .error _ => runSeq compute readBox rest cache

/-- C3 counterexample: with the trajectory selection absent and the RDF
checkbox on, the script does attempt the System build on the missing
selection — `create_u()` is invoked and raises — rather than blocking it
beforehand. -/
theorem missing_selection_build_attempted :
    Event.buildSystem ∈
      (metricStep (fun u => u.dimensions) (fun _ => some 18)
        ⟨none, some "topo.mol2", some "box.pbc"⟩ true false none).1 ∧
    (metricStep (fun u => u.dimensions) (fun _ => some 18)
        ⟨none, some "topo.mol2", some "box.pbc"⟩ true false none).2
      = .error Err.missingSelection := by
  constructor
  · simp [metricStep, create_u]
  · rfl

/-- C3 (amended): when any of the three selections is absent and a metric's
checkbox is on, the System build is attempted and raises inside the
builder; the analysis itself is never run, so no analysis result is
produced for the missing selection — but the failure arises from the
attempted build, not from blocking it up front. -/
theorem missing_selection_blocks_analysis {R : Type} (compute : Universe → R)
    (readBox : String → Option ℚ) (sel : Selection) (recalc : Bool) (cache : Option R)
    (hmiss : sel.xyz = none ∨ sel.mol2 = none ∨ sel.pbc = none) :
    (metricStep compute readBox sel true recalc cache).1 = [Event.buildSystem] ∧
    Event.runAnalysis ∉ (metricStep compute readBox sel true recalc cache).1 ∧
    (metricStep compute readBox sel true recalc cache).2 = .error Err.missingSelection := by
  have hcu : create_u readBox sel = .error Err.missingSelection := by
    obtain ⟨x, m, p⟩ := sel
    cases x <;> cases m <;> cases p <;> simp_all [create_u]
  refine ⟨?_, ?_, ?_⟩ <;> simp [metricStep, hcu]

/-- Witness for C3's amended theorem: missing topology selection, RDF
enabled, empty cache. -/
theorem missing_selection_blocks_analysis_witness :
    (metricStep (fun u => u.dimensions) (fun _ => some 18)
        ⟨some "traj.xyz", none, some "box.pbc"⟩ true false none).1 = [Event.buildSystem] ∧
    Event.runAnalysis ∉ (metricStep (fun u => u.dimensions) (fun _ => some 18)
        ⟨some "traj.xyz", none, some "box.pbc"⟩ true false none).1 ∧
    (metricStep (fun u => u.dimensions) (fun _ => some 18)
        ⟨some "traj.xyz", none, some "box.pbc"⟩ true false none).2
      = .error Err.missingSelection :=
  missing_selection_blocks_analysis (fun u => u.dimensions) (fun _ => some 18)
    ⟨some "traj.xyz", none, some "box.pbc"⟩ false none (Or.inr (Or.inl rfl))

/-- C4: per-metric caching semantics.  (1) On first invocation the metric
is computed and stored; (2) on a later run with the button not pressed the
stored value is reused unchanged and displayed — for any Selection, so a
Selection change never by itself invalidates the cache; (3) pressing
recalculate reruns the metric and overwrites the store; (4) an unchecked
metric leaves its slot untouched; (5) across any sequence of re-runs with
recalculate never pressed, a stored value survives unchanged. -/
theorem metric_cache_semantics {R : Type} (compute : Universe → R)
    (readBox : String → Option ℚ) :
    (∀ sel u, create_u readBox sel = .ok u →
        (metricStep compute readBox sel true false none).2
          = .ok (some (compute u), some (compute u))) ∧
    (∀ sel u (r : R), create_u readBox sel = .ok u →
        (metricStep compute readBox sel true false (some r)).2 = .ok (some r, some r)) ∧
    (∀ sel u (r : R), create_u readBox sel = .ok u →
        (metricStep compute readBox sel true true (some r)).2
          = .ok (some (compute u), some (compute u))) ∧
    (∀ sel recalc (cache : Option R),
        (metricStep compute readBox sel false recalc cache).2 = .ok (cache, none)) ∧
    (∀ (steps : List (Selection × Bool × Bool)) (r : R),
        (∀ st ∈ steps, st.2.2 = false) →
        runSeq compute readBox steps (some r) = some r) := by
  refine ⟨?_, ?_, ?_, ?_, ?_⟩
  · intro sel u hu; simp [metricStep, hu]
  · intro sel u r hu; simp [metricStep, hu]
  · intro sel u r hu; simp [metricStep, hu]
  · intro sel recalc cache; simp [metricStep]
  · intro steps r h
    induction steps with
    | nil => rfl
    | cons st rest ih =>
        obtain ⟨sel, check, recalc⟩ := st
        have hr : recalc = false := h (sel, check, recalc) (List.mem_cons_self _ _)
        subst hr
        have hrest : ∀ st ∈ rest, st.2.2 = false := fun s hs => h s (List.mem_cons_of_mem _ hs)
        cases check with
        | false =>
            have : runSeq compute readBox ((sel, false, false) :: rest) (some r)
                = runSeq compute readBox rest (some r) := by
              simp [runSeq, metricStep]
            rw [this]; exact ih hrest
        | true =>
            cases hcu : create_u readBox sel with
            | error e =>
                have : runSeq compute readBox ((sel, true, false) :: rest) (some r)
                    = runSeq compute readBox rest (some r) := by
                  simp [runSeq, metricStep, hcu]
                rw [this]; exact ih hrest
            | ok u =>
                have : runSeq compute readBox ((sel, true, false) :: rest) (some r)
                    = runSeq compute readBox rest (some r) := by
                  simp [runSeq, metricStep, hcu]
                rw [this]; exact ih hrest

/-- Witness for C4 at a concrete metric (`compute` reads the box
dimensions), a valid concrete Selection, and a two-step run sequence with a
changed Selection and no recalculate press. -/
theorem metric_cache_semantics_witness :
    (metricStep (fun u => u.dimensions) (fun _ => some 18)
        ⟨some "t.xyz", some "t.mol2", some "b.pbc"⟩ true false none).2
      = .ok (some [18, 18, 18, 90, 90, 90], some [18, 18, 18, 90, 90, 90]) ∧
    (metricStep (fun u => u.dimensions) (fun _ => some 18)
        ⟨some "other.xyz", some "other.mol2", some "other.pbc"⟩ true false (some [1])).2
      = .ok (some [1], some [1]) ∧
    runSeq (fun u => u.dimensions) (fun _ => some 18)
        [(⟨some "t.xyz", some "t.mol2", some "b.pbc"⟩, true, false),
         (⟨some "other.xyz", some "other.mol2", some "other.pbc"⟩, true, false)]
        (some [1]) = some [1] := by
  refine ⟨?_, ?_, ?_⟩
  · exact (metric_cache_semantics (fun u => u.dimensions) (fun _ => some 18)).1
      ⟨some "t.xyz", some "t.mol2", some "b.pbc"⟩
      ⟨"t.mol2", "t.xyz", [18, 18, 18, 90, 90, 90]⟩ rfl
  · exact (metric_cache_semantics (fun u => u.dimensions) (fun _ => some 18)).2.1
      ⟨some "other.xyz", some "other.mol2", some "other.pbc"⟩
      ⟨"other.mol2", "other.xyz", [18, 18, 18, 90, 90, 90]⟩ [1] rfl
  · exact (metric_cache_semantics (fun u => u.dimensions) (fun _ => some 18)).2.2.2.2
      _ [1] (by intro st hst; fin_cases hst <;> rfl)

/-- The fixed timestep between frames, in fs — a placeholder hardcoded in
the script (`timestep = 100`), not derived from trajectory metadata. -/
def timestep : ℕ := 100

/-- Embeds `lagtimes = np.arange(nframes) * timestep`. -/
def lagtimes (nframes : ℕ) : List ℕ := (List.range nframes).map (fun i => i * timestep)

/-- Python slice `l[a:b]` for non-negative a, b. -/
def pySlice {α : Type} (l : List α) (a b : ℕ) : List α := (l.drop a).take (b - a)

/-- Clamp x into [lo, hi] (for lo ≤ hi). -/
def clamp (lo hi x : ℕ) : ℕ := max lo (min x hi)

/-- Modelled from the spec: the `st.slider` range widget with bounds
[lo, hi].  With no user interaction (`none`) it yields the default full
range `(lo, hi)`; a user request is clamped into [lo, hi] and ordered, as
the widget only ever emits an ordered pair inside its bounds. -/
def slider (lo hi : ℕ) (req : Option (ℕ × ℕ)) : ℕ × ℕ :=
  match req with
  | none => (lo, hi)
  | some (a, b) =>
      (min (clamp lo hi a) (clamp lo hi b), max (clamp lo hi a) (clamp lo hi b))

/-- Failure modes of `scipy.stats.linregress`: empty input, or all x values
identical (which includes a single-point input). -/
inductive RegErr where
  | emptyInput
  | identicalX
deriving DecidableEq

/-- Ordinary least-squares slope of a list of (x, y) points, in the
covariance/variance form used by `scipy.stats.linregress`. -/
def olsSlope (pts : List (ℚ × ℚ)) : ℚ :=
  let n : ℚ := pts.length
  let sx := (pts.map (fun p => p.1)).sum
  let sy := (pts.map (fun p => p.2)).sum
  let sxx := (pts.map (fun p => p.1 * p.1)).sum
  let sxy := (pts.map (fun p => p.1 * p.2)).sum
  (n * sxy - sx * sy) / (n * sxx - sx * sx)

/-- Modelled from the spec: `scipy.stats.linregress` raises on empty input
and on inputs whose x values are all identical (degenerate regression), and
otherwise returns the ordinary least-squares slope. -/
def linregress (pts : List (ℚ × ℚ)) : Except RegErr ℚ :=
  match pts with
  | [] => .error .emptyInput
  | p :: rest =>
      if rest.all (fun q => q.1 == p.1) then .error .identicalX
      else .ok (olsSlope (p :: rest))

/-- Result object of the external Einstein MSD computation as the script
uses it: the per-frame MSD `timeseries`, the frame count `n_frames`, and
the dimensionality factor `dim_fac` (3 for msd_type "xyz"). -/
structure MSDResult where
  timeseries : List ℚ
  n_frames : ℕ
  dim_fac : ℚ
deriving DecidableEq

/-- The diffusivity numbers the script derives from the fitted slope:
`D = slope * 1 / (2 * dim_fac)` and the displayed value `D * 10⁻⁵`. -/
structure DiffReport where
  slope : ℚ
  D : ℚ
  displayed : ℚ
deriving DecidableEq

/-- Everything the MSD block derives from the slider selection: the chosen
window, the frame indices obtained from it, the indices used for the
plot's y-axis range (`msd[start_time // timestep]`), the point list fed to
the regression, and the regression outcome. -/
structure MSDView where
  start_time : ℕ
  end_time : ℕ
  start_index : ℕ
  end_index : ℕ
  yLoIdx : ℕ
  yHiIdx : ℕ
  regressionPts : List (ℚ × ℚ)
  outcome : Except RegErr DiffReport

/-- Embeds the MSD/self-diffusivity block below the `MSD.run()` caching:
the lag-time axis, the slider over [lagtimes[0], lagtimes[-1]] with the
full range as default, conversion of the chosen times to frame indices by
division by the timestep, the regression over the sliced sub-series, and
the diffusivity derived from the fitted slope. -/
def msdStep (res : MSDResult) (req : Option (ℕ × ℕ)) : MSDView :=
  let msd := res.timeseries
  let lag := lagtimes res.n_frames
  let win := slider (lag.headD 0) (lag.getLastD 0) req
  let start_time := win.1
  let end_time := win.2
  let start_index := start_time / timestep
  let end_index := end_time / timestep
  let pts := ((pySlice lag start_index end_index).map (fun t : ℕ => (t : ℚ))).zip
      (pySlice msd start_index end_index)
  { start_time := start_time
    end_time := end_time
    start_index := start_index
    end_index := end_index
    yLoIdx := start_time / timestep
    yHiIdx := end_time / timestep
    regressionPts := pts
    outcome :=
      match linregress pts with
      | .error e => .error e
      | .ok slope =>
          .ok { slope := slope
                D := slope * 1 / (2 * res.dim_fac)
                displayed := slope * 1 / (2 * res.dim_fac) * (1 / 10 ^ 5) } }

theorem lagtimes_length (n : ℕ) : (lagtimes n).length = n := by
  simp [lagtimes]

theorem lagtimes_headD (n : ℕ) (hn : 1 ≤ n) : (lagtimes n).headD 0 = 0 := by
  cases n with
  | zero => omega
  | succ m => simp [lagtimes, List.range_succ_eq_map]

theorem lagtimes_getLastD (m : ℕ) : (lagtimes (m + 1)).getLastD 0 = m * timestep := by
  have h : lagtimes (m + 1) = lagtimes m ++ [m * timestep] := by
    simp [lagtimes, List.range_succ]
  rw [h]
  simp [List.getLastD_concat]

theorem lagtimes_take (n k : ℕ) : (lagtimes n).take k = lagtimes (min k n) := by
  simp [lagtimes, ← List.map_take, List.take_range]

theorem slider_bounds (lo hi : ℕ) (req : Option (ℕ × ℕ)) (h : lo ≤ hi) :
    lo ≤ (slider lo hi req).1 ∧ (slider lo hi req).1 ≤ (slider lo hi req).2 ∧
      (slider lo hi req).2 ≤ hi := by
  match req with
  | none => exact ⟨le_refl _, h, le_refl _⟩
  | some (a, b) =>
      simp only [slider, clamp]
      omega

theorem msdStep_start_time (res : MSDResult) (req : Option (ℕ × ℕ)) :
    (msdStep res req).start_time
      = (slider ((lagtimes res.n_frames).headD 0) ((lagtimes res.n_frames).getLastD 0) req).1 :=
  rfl

theorem msdStep_end_time (res : MSDResult) (req : Option (ℕ × ℕ)) :
    (msdStep res req).end_time
      = (slider ((lagtimes res.n_frames).headD 0) ((lagtimes res.n_frames).getLastD 0) req).2 :=
  rfl

theorem msdStep_start_index (res : MSDResult) (req : Option (ℕ × ℕ)) :
    (msdStep res req).start_index = (msdStep res req).start_time / timestep :=
  rfl

theorem msdStep_end_index (res : MSDResult) (req : Option (ℕ × ℕ)) :
    (msdStep res req).end_index = (msdStep res req).end_time / timestep :=
  rfl

theorem msdStep_yLoIdx (res : MSDResult) (req : Option (ℕ × ℕ)) :
    (msdStep res req).yLoIdx = (msdStep res req).start_time / timestep :=
  rfl

theorem msdStep_yHiIdx (res : MSDResult) (req : Option (ℕ × ℕ)) :
    (msdStep res req).yHiIdx = (msdStep res req).end_time / timestep :=
  rfl

theorem msdStep_regressionPts (res : MSDResult) (req : Option (ℕ × ℕ)) :
    (msdStep res req).regressionPts
      = ((pySlice (lagtimes res.n_frames) ((msdStep res req).start_index)
            ((msdStep res req).end_index)).map (fun t : ℕ => (t : ℚ))).zip
          (pySlice res.timeseries ((msdStep res req).start_index)
            ((msdStep res req).end_index)) :=
  rfl

theorem msdStep_outcome (res : MSDResult) (req : Option (ℕ × ℕ)) :
    (msdStep res req).outcome
      = match linregress ((msdStep res req).regressionPts) with
        | .error e => .error e
        | .ok slope =>
            .ok { slope := slope
                  D := slope * 1 / (2 * res.dim_fac)
                  displayed := slope * 1 / (2 * res.dim_fac) * (1 / 10 ^ 5) } :=
  rfl

theorem sum_sq_sub_expand (a : ℚ) (l : List ℚ) :
    (l.map (fun x => (a - x) * (a - x))).sum
      = l.length * (a * a) - 2 * a * l.sum + (l.map (fun x => x * x)).sum := by
  induction l with
  | nil => simp
  | cons b t ih =>
      simp only [List.map_cons, List.sum_cons, List.length_cons, ih]
      push_cast
      ring

/-- The scaled variance numerator n·Σx² − (Σx)², the denominator of the
ordinary least-squares slope. -/
def varNum (xs : List ℚ) : ℚ :=
  xs.length * (xs.map (fun x => x * x)).sum - xs.sum * xs.sum

theorem varNum_cons (a : ℚ) (l : List ℚ) :
    varNum (a :: l) = varNum l + (l.map (fun x => (a - x) * (a - x))).sum := by
  simp only [varNum, List.map_cons, List.sum_cons, List.length_cons, sum_sq_sub_expand]
  push_cast
  ring

theorem varNum_nonneg (xs : List ℚ) : 0 ≤ varNum xs := by
  induction xs with
  | nil => simp [varNum]
  | cons a l ih =>
      rw [varNum_cons]
      have h : 0 ≤ (l.map (fun x => (a - x) * (a - x))).sum := by
        apply List.sum_nonneg
        intro y hy
        obtain ⟨x, _, rfl⟩ := List.mem_map.mp hy
        exact mul_self_nonneg _
      linarith

theorem varNum_pos (x0 x1 : ℚ) (rest : List ℚ) (h : x0 ≠ x1) :
    0 < varNum (x0 :: x1 :: rest) := by
  rw [varNum_cons]
  have h1 : 0 ≤ varNum (x1 :: rest) := varNum_nonneg _
  have h2 : 0 < ((x1 :: rest).map (fun x => (x0 - x) * (x0 - x))).sum := by
    simp only [List.map_cons, List.sum_cons]
    have hpos : 0 < (x0 - x1) * (x0 - x1) := mul_self_pos.mpr (sub_ne_zero.mpr h)
    have hrest : 0 ≤ (rest.map (fun x => (x0 - x) * (x0 - x))).sum := by
      apply List.sum_nonneg
      intro y hy
      obtain ⟨x, _, rfl⟩ := List.mem_map.mp hy
      exact mul_self_nonneg _
    linarith
  linarith

theorem linear_sums (s c : ℚ) (pts : List (ℚ × ℚ)) (h : ∀ p ∈ pts, p.2 = s * p.1 + c) :
    (pts.map (fun p => p.2)).sum = s * (pts.map (fun p => p.1)).sum + c * pts.length ∧
    (pts.map (fun p => p.1 * p.2)).sum
      = s * (pts.map (fun p => p.1 * p.1)).sum + c * (pts.map (fun p => p.1)).sum := by
  induction pts with
  | nil => simp
  | cons p t ih =>
      have hp := h p (List.mem_cons_self _ _)
      obtain ⟨ih1, ih2⟩ := ih (fun q hq => h q (List.mem_cons_of_mem _ hq))
      constructor
      · simp only [List.map_cons, List.sum_cons, List.length_cons, ih1, hp]
        push_cast
        ring
      · simp only [List.map_cons, List.sum_cons, ih2, hp]
        ring

theorem varNum_eq_map_fst (pts : List (ℚ × ℚ)) :
    varNum (pts.map (fun p => p.1))
      = pts.length * (pts.map (fun p => p.1 * p.1)).sum
          - (pts.map (fun p => p.1)).sum * (pts.map (fun p => p.1)).sum := by
  unfold varNum
  rw [List.map_map, List.length_map]
  rfl

theorem olsSlope_linear (s c : ℚ) (pts : List (ℚ × ℚ))
    (h : ∀ p ∈ pts, p.2 = s * p.1 + c)
    (hd : varNum (pts.map (fun p => p.1)) ≠ 0) :
    olsSlope pts = s := by
  obtain ⟨h1, h2⟩ := linear_sums s c pts h
  have hd' : (pts.length : ℚ) * (pts.map (fun p => p.1 * p.1)).sum
      - (pts.map (fun p => p.1)).sum * (pts.map (fun p => p.1)).sum ≠ 0 := by
    rw [← varNum_eq_map_fst]; exact hd
  simp only [olsSlope, h1, h2]
  rw [div_eq_iff hd']
  ring

theorem linregress_linear (s c : ℚ) (p0 p1 : ℚ × ℚ) (rest : List (ℚ × ℚ))
    (h : ∀ p ∈ p0 :: p1 :: rest, p.2 = s * p.1 + c) (hx : p0.1 ≠ p1.1) :
    linregress (p0 :: p1 :: rest) = .ok s := by
  have hall : ((p1 :: rest).all (fun q => q.1 == p0.1)) = false := by
    simp only [List.all_cons, Bool.and_eq_false_iff]
    left
    simp only [beq_eq_false_iff_ne, ne_eq]
    exact fun habs => hx habs.symm
  have hd : varNum ((p0 :: p1 :: rest).map (fun p => p.1)) ≠ 0 := by
    simp only [List.map_cons]
    exact ne_of_gt (varNum_pos p0.1 p1.1 _ hx)
  simp only [linregress, hall, if_false]
  exact congrArg Except.ok (olsSlope_linear s c _ h hd)

/-- A concrete MSD result with 5 frames, used to evaluate the script on
degenerate fit windows. -/
def resNarrow : MSDResult := { timeseries := [0, 1, 4, 9, 16], n_frames := 5, dim_fac := 3 }

/-- C1 (failing input): on a window of zero frames (slider at (0, 0)) the
script hands the empty slice straight to the regression routine, which
raises on empty input; on a window of one frame (slider at (0, 100)) it
raises on identical x values.  No "window too narrow" condition exists in
the code — the error surfaces as an uncaught exception, not a report. -/
theorem msd_narrow_window_errors :
    (msdStep resNarrow (some (0, 0))).outcome = .error RegErr.emptyInput ∧
    (msdStep resNarrow (some (0, 100))).outcome = .error RegErr.identicalX := by
  constructor <;> rfl

/-- C5: the fit window returned by the slider is clamped to the available
lag-time range [lagtimes[0], lagtimes[-1]] and defaults to the full range;
the chosen times are converted to frame indices by integer division by the
timestep (100); and the regression input is exactly the MSD sub-series
(with its lag-time axis) sliced over [start_index, end_index). -/
theorem fit_window_selection_spec (res : MSDResult) (req : Option (ℕ × ℕ))
    (hn : 1 ≤ res.n_frames) :
    timestep = 100 ∧
    ((lagtimes res.n_frames).headD 0 ≤ (msdStep res req).start_time ∧
      (msdStep res req).start_time ≤ (msdStep res req).end_time ∧
      (msdStep res req).end_time ≤ (lagtimes res.n_frames).getLastD 0) ∧
    (req = none →
        (msdStep res req).start_time = (lagtimes res.n_frames).headD 0 ∧
        (msdStep res req).end_time = (lagtimes res.n_frames).getLastD 0) ∧
    (msdStep res req).start_index = (msdStep res req).start_time / timestep ∧
    (msdStep res req).end_index = (msdStep res req).end_time / timestep ∧
    (msdStep res req).regressionPts
      = ((pySlice (lagtimes res.n_frames) ((msdStep res req).start_index)
            ((msdStep res req).end_index)).map (fun t : ℕ => (t : ℚ))).zip
          (pySlice res.timeseries ((msdStep res req).start_index)
            ((msdStep res req).end_index)) := by
  have h0 : (lagtimes res.n_frames).headD 0 = 0 := lagtimes_headD _ hn
  have hb := slider_bounds ((lagtimes res.n_frames).headD 0)
    ((lagtimes res.n_frames).getLastD 0) req (by rw [h0]; exact Nat.zero_le _)
  refine ⟨rfl, ⟨?_, ?_, ?_⟩, ?_, rfl, rfl, rfl⟩
  · rw [msdStep_start_time]; exact hb.1
  · rw [msdStep_start_time, msdStep_end_time]; exact hb.2.1
  · rw [msdStep_end_time]; exact hb.2.2
  · intro hreq
    subst hreq
    exact ⟨rfl, rfl⟩

/-- Witness for C5 at a 5-frame MSD result and a user-chosen window. -/
theorem fit_window_selection_spec_witness :
    timestep = 100 ∧
    ((lagtimes resNarrow.n_frames).headD 0 ≤ (msdStep resNarrow (some (100, 300))).start_time ∧
      (msdStep resNarrow (some (100, 300))).start_time
        ≤ (msdStep resNarrow (some (100, 300))).end_time ∧
      (msdStep resNarrow (some (100, 300))).end_time
        ≤ (lagtimes resNarrow.n_frames).getLastD 0) ∧
    (some (100, 300) = (none : Option (ℕ × ℕ)) →
        (msdStep resNarrow (some (100, 300))).start_time
          = (lagtimes resNarrow.n_frames).headD 0 ∧
        (msdStep resNarrow (some (100, 300))).end_time
          = (lagtimes resNarrow.n_frames).getLastD 0) ∧
    (msdStep resNarrow (some (100, 300))).start_index
      = (msdStep resNarrow (some (100, 300))).start_time / timestep ∧
    (msdStep resNarrow (some (100, 300))).end_index
      = (msdStep resNarrow (some (100, 300))).end_time / timestep ∧
    (msdStep resNarrow (some (100, 300))).regressionPts
      = ((pySlice (lagtimes resNarrow.n_frames)
            ((msdStep resNarrow (some (100, 300))).start_index)
            ((msdStep resNarrow (some (100, 300))).end_index)).map (fun t : ℕ => (t : ℚ))).zip
          (pySlice resNarrow.timeseries
            ((msdStep resNarrow (some (100, 300))).start_index)
            ((msdStep resNarrow (some (100, 300))).end_index)) :=
  fit_window_selection_spec resNarrow (some (100, 300)) (by decide)

/-- C10: for every slider selection, the frame indices the MSD block
derives — start_index and end_index used to slice the series for the
regression, and the indices start_time // timestep and end_time // timestep
used to index the series for the plot's y-axis range — all lie within
[0, n_frames - 1], so every index into the MSD series is in bounds. -/
theorem fit_window_indices_in_bounds (res : MSDResult) (req : Option (ℕ × ℕ))
    (hn : 1 ≤ res.n_frames) :
    (msdStep res req).start_index ≤ (msdStep res req).end_index ∧
    (msdStep res req).end_index ≤ res.n_frames - 1 ∧
    (msdStep res req).yLoIdx ≤ res.n_frames - 1 ∧
    (msdStep res req).yHiIdx ≤ res.n_frames - 1 ∧
    (msdStep res req).end_index < res.n_frames := by
  obtain ⟨m, hm⟩ : ∃ m, res.n_frames = m + 1 := ⟨res.n_frames - 1, by omega⟩
  have h0 : (lagtimes res.n_frames).headD 0 = 0 := lagtimes_headD _ hn
  have hlast : (lagtimes res.n_frames).getLastD 0 = m * timestep := by
    rw [hm]; exact lagtimes_getLastD m
  have hb := slider_bounds ((lagtimes res.n_frames).headD 0)
    ((lagtimes res.n_frames).getLastD 0) req (by rw [h0]; exact Nat.zero_le _)
  have hstep : 0 < timestep := by norm_num [timestep]
  have htime : (msdStep res req).end_time ≤ m * timestep := by
    rw [msdStep_end_time, ← hlast]; exact hb.2.2
  have hend : (msdStep res req).end_index ≤ m := by
    rw [msdStep_end_index]
    calc (msdStep res req).end_time / timestep
        ≤ m * timestep / timestep := Nat.div_le_div_right htime
      _ = m := Nat.mul_div_cancel m hstep
  have hse : (msdStep res req).start_index ≤ (msdStep res req).end_index := by
    rw [msdStep_start_index, msdStep_end_index]
    apply Nat.div_le_div_right
    rw [msdStep_start_time, msdStep_end_time]
    exact hb.2.1
  refine ⟨hse, by omega, ?_, ?_, by omega⟩
  · rw [msdStep_yLoIdx, ← msdStep_start_index]; omega
  · rw [msdStep_yHiIdx, ← msdStep_end_index]; omega

/-- Witness for C10 at a 5-frame MSD result and a clamped over-wide
request. -/
theorem fit_window_indices_in_bounds_witness :
    (msdStep resNarrow (some (0, 10000))).start_index
      ≤ (msdStep resNarrow (some (0, 10000))).end_index ∧
    (msdStep resNarrow (some (0, 10000))).end_index ≤ resNarrow.n_frames - 1 ∧
    (msdStep resNarrow (some (0, 10000))).yLoIdx ≤ resNarrow.n_frames - 1 ∧
    (msdStep resNarrow (some (0, 10000))).yHiIdx ≤ resNarrow.n_frames - 1 ∧
    (msdStep resNarrow (some (0, 10000))).end_index < resNarrow.n_frames :=
  fit_window_indices_in_bounds resNarrow (some (0, 10000)) (by decide)

/-- C2: whenever the regression over the selected window succeeds (which
requires at least two frames, with distinct lag times), the script derives
D = slope / (2 × 3) from the ordinary least-squares slope of the windowed
MSD sub-series and displays D × 10⁻⁵; and for a synthetic MSD series
exactly linear in the lag times with slope s, the fitted slope over the
default full window is exactly s and D = s/6. -/
theorem diffusivity_linear_msd :
    (∀ (res : MSDResult) (req : Option (ℕ × ℕ)) (sl : ℚ), res.dim_fac = 3 →
        linregress (msdStep res req).regressionPts = .ok sl →
        (msdStep res req).outcome = .ok ⟨sl, sl / 6, sl / 6 * (1 / 10 ^ 5)⟩) ∧
    (∀ (s c : ℚ) (n : ℕ) (res : MSDResult), 3 ≤ n →
        res.timeseries = (lagtimes n).map (fun t : ℕ => s * (t : ℚ) + c) →
        res.n_frames = n → res.dim_fac = 3 →
        (msdStep res none).outcome = .ok ⟨s, s / 6, s / 6 * (1 / 10 ^ 5)⟩) := by
  have hgen : ∀ (res : MSDResult) (req : Option (ℕ × ℕ)) (sl : ℚ), res.dim_fac = 3 →
      linregress (msdStep res req).regressionPts = .ok sl →
      (msdStep res req).outcome = .ok ⟨sl, sl / 6, sl / 6 * (1 / 10 ^ 5)⟩ := by
    intro res req sl hdim hlin
    rw [msdStep_outcome, hlin, hdim]
    have h1 : sl * 1 / (2 * (3 : ℚ)) = sl / 6 := by ring
    have h2 : sl / (2 * (3 : ℚ)) = sl / 6 := by ring
    simp [h1, h2]
  refine ⟨hgen, ?_⟩
  intro s c n res hn hts hnf hdim
  subst hnf
  obtain ⟨k, hk⟩ : ∃ k, res.n_frames = k + 3 := ⟨res.n_frames - 3, by omega⟩
  have h0 : (lagtimes res.n_frames).headD 0 = 0 := lagtimes_headD _ (by omega)
  have hlast : (lagtimes res.n_frames).getLastD 0 = (k + 2) * timestep := by
    rw [hk]; exact lagtimes_getLastD (k + 2)
  have hst : (msdStep res none).start_time = 0 := by
    rw [msdStep_start_time]; exact h0
  have hen : (msdStep res none).end_time = (k + 2) * timestep := by
    rw [msdStep_end_time]; exact hlast
  have hstep : 0 < timestep := by norm_num [timestep]
  have hsi : (msdStep res none).start_index = 0 := by
    rw [msdStep_start_index, hst]; exact Nat.zero_div _
  have hei : (msdStep res none).end_index = k + 2 := by
    rw [msdStep_end_index, hen]; exact Nat.mul_div_cancel _ hstep
  have hpts : (msdStep res none).regressionPts
      = (lagtimes (k + 2)).map (fun t : ℕ => ((t : ℚ), s * (t : ℚ) + c)) := by
    rw [msdStep_regressionPts, hsi, hei, hts, hk]
    simp only [pySlice, List.drop_zero, Nat.sub_zero]
    rw [lagtimes_take, ← List.map_take, lagtimes_take]
    simp only [show min (k + 2) (k + 3) = k + 2 by omega]
    exact List.zip_map' _ _ _
  have e1 : List.range (k + 2) = 0 :: 1 :: ((List.range k).map Nat.succ).map Nat.succ := by
    rw [show k + 2 = (k + 1) + 1 from rfl, List.range_succ_eq_map,
      List.range_succ_eq_map, List.map_cons]
  have hlag : lagtimes (k + 2)
      = 0 :: timestep :: ((((List.range k).map Nat.succ).map Nat.succ).map
          (fun i => i * timestep)) := by
    rw [lagtimes, e1]
    simp [List.map_cons]
  have hcons : (msdStep res none).regressionPts
      = (((0 : ℕ) : ℚ), s * ((0 : ℕ) : ℚ) + c) ::
        (((timestep : ℕ) : ℚ), s * ((timestep : ℕ) : ℚ) + c) ::
        ((((List.range k).map Nat.succ).map Nat.succ).map (fun i => i * timestep)).map
          (fun t : ℕ => ((t : ℚ), s * (t : ℚ) + c)) := by
    rw [hpts, hlag, List.map_cons, List.map_cons]
  have hmem : ∀ p ∈ (msdStep res none).regressionPts, p.2 = s * p.1 + c := by
    intro p hp
    rw [hpts] at hp
    obtain ⟨t, _, rfl⟩ := List.mem_map.mp hp
    rfl
  rw [hcons] at hmem
  have hx : (((0 : ℕ) : ℚ), s * ((0 : ℕ) : ℚ) + c).1
      ≠ (((timestep : ℕ) : ℚ), s * ((timestep : ℕ) : ℚ) + c).1 := by
    simp [timestep]
  have hlin := linregress_linear s c _ _ _ hmem hx
  apply hgen res none s hdim
  rw [hcons]
  exact hlin

/-- Witness for C2: a 3-frame MSD series exactly linear in the lag times
with slope 2 and intercept 1. -/
theorem diffusivity_linear_msd_witness :
    (msdStep ⟨(lagtimes 3).map (fun t : ℕ => 2 * (t : ℚ) + 1), 3, 3⟩ none).outcome
      = .ok ⟨2, 2 / 6, 2 / 6 * (1 / 10 ^ 5)⟩ :=
  diffusivity_linear_msd.2 2 1 3
    ⟨(lagtimes 3).map (fun t : ℕ => 2 * (t : ℚ) + 1), 3, 3⟩ (by norm_num) rfl rfl rfl

/-- A particle position (x, y, z) in exact coordinates. -/
abbrev Pos : Type := ℚ × ℚ × ℚ

/-- Squared Euclidean displacement between two positions. -/
def sqDist (p q : Pos) : ℚ :=
  (p.1 - q.1) ^ 2 + (p.2.1 - q.2.1) ^ 2 + (p.2.2 - q.2.2) ^ 2

/-- Sum of squared displacements between corresponding atoms of two
frames. -/
def framePairSq (f g : List Pos) : ℚ :=
  ((f.zip g).map (fun pq => sqDist pq.1 pq.2)).sum

/-- MSD at one lag: the average, over all (t, t + lag) window pairs and all
atoms, of the squared displacement. -/
def msdAtLag (traj : List (List Pos)) (natoms lag : ℕ) : ℚ :=
  ((((traj.drop lag).zip traj).map (fun fg => framePairSq fg.1 fg.2)).sum) /
    ((natoms : ℚ) * ((traj.length - lag : ℕ) : ℚ))

/-- Modelled from the spec: the external `EinsteinMSD` computation over all
atoms in 3D (`msd_type="xyz"`), whose result object the script reads.  Its
timeseries is the windowed Einstein MSD — one value per frame, the value at
lag i averaging the squared displacements over all start frames and atoms;
the library's FFT path is an algorithmic speedup of these same averages,
modelled here in exact arithmetic.  `dim_fac` is 3 for 3D motion. -/
def einsteinMSD (traj : List (List Pos)) : MSDResult :=
  { timeseries :=
      (List.range traj.length).map (fun lag => msdAtLag traj (traj.headD []).length lag)
    n_frames := traj.length
    dim_fac := 3 }

/-- C6: every computed MSD result has exactly one value per trajectory
frame, every value is non-negative, and the lag-time axis equals
frame_index × 100 with the fixed placeholder timestep 100 fs, for all frame
indices below n_frames. -/
theorem msd_series_shape (traj : List (List Pos)) :
    (einsteinMSD traj).timeseries.length = (einsteinMSD traj).n_frames ∧
    (∀ q ∈ (einsteinMSD traj).timeseries, 0 ≤ q) ∧
    timestep = 100 ∧
    (∀ i, i < (einsteinMSD traj).n_frames →
      (lagtimes (einsteinMSD traj).n_frames).getD i 0 = i * 100) := by
  refine ⟨by simp [einsteinMSD], ?_, rfl, ?_⟩
  · intro q hq
    simp only [einsteinMSD, List.mem_map] at hq
    obtain ⟨lag, _, rfl⟩ := hq
    unfold msdAtLag
    apply div_nonneg
    · apply List.sum_nonneg
      intro y hy
      obtain ⟨fg, _, rfl⟩ := List.mem_map.mp hy
      unfold framePairSq
      apply List.sum_nonneg
      intro z hz
      obtain ⟨pq, _, rfl⟩ := List.mem_map.mp hz
      unfold sqDist
      positivity
    · positivity
  · intro i hi
    simp only [einsteinMSD] at hi ⊢
    simp [lagtimes, List.getD, List.getElem?_map, List.getElem?_range, hi, timestep]

/-- Witness for C6 at a two-frame, one-atom trajectory. -/
theorem msd_series_shape_witness :
    (0 : ℚ) ≤ msdAtLag [[((0 : ℚ), 0, 0)], [(1, 0, 0)]]
        (([[((0 : ℚ), 0, 0)], [(1, 0, 0)]].headD ([] : List Pos)).length) 1 ∧
    (lagtimes (einsteinMSD [[((0 : ℚ), 0, 0)], [(1, 0, 0)]]).n_frames).getD 1 0 = 1 * 100 :=
  ⟨(msd_series_shape [[((0 : ℚ), 0, 0)], [(1, 0, 0)]]).2.1 _
      (List.mem_map.mpr ⟨1, by decide, rfl⟩),
   (msd_series_shape [[((0 : ℚ), 0, 0)], [(1, 0, 0)]]).2.2.2 1 (by decide)⟩

/-- Histogram data the LinearDensity result exposes for one axis. -/
structure AxisResult where
  hist_bin_edges : List ℚ
  mass_density : List ℚ
deriving DecidableEq

/-- The per-axis results of the LinearDensity analysis. -/
structure LDensResults where
  x : AxisResult
  y : AxisResult
  z : AxisResult
deriving DecidableEq

/-- The fixed bin width 0.1 Å passed to LinearDensity. -/
def binsize : ℚ := 1 / 10

/-- Number of bins an axis of box edge L gets at the fixed bin width. -/
def nbinsOf (L : ℚ) : ℕ := (⌈L / binsize⌉).toNat

/-- Modelled from the spec: the external `LinearDensity` analysis over the
cubic cell of edge L computes, for each Cartesian axis, a mass-density
histogram with bin width 0.1 Å — the same bin layout on every axis since
the cell is cubic — exposing nbins+1 bin edges and one density value per
bin.  The density values themselves are the physics engine's output,
abstracted as `dens`. -/
def linearDensity (L : ℚ) (dens : Fin 3 → ℕ → ℚ) : LDensResults :=
  { x := { hist_bin_edges := (List.range (nbinsOf L + 1)).map (fun i : ℕ => i * binsize)
           mass_density := (List.range (nbinsOf L)).map (dens 0) }
    y := { hist_bin_edges := (List.range (nbinsOf L + 1)).map (fun i : ℕ => i * binsize)
           mass_density := (List.range (nbinsOf L)).map (dens 1) }
    z := { hist_bin_edges := (List.range (nbinsOf L + 1)).map (fun i : ℕ => i * binsize)
           mass_density := (List.range (nbinsOf L)).map (dens 2) } }

/-- Embeds `average = (x.mass_density + y.mass_density + z.mass_density) / 3`
of the linear-density block — numpy elementwise addition and division. -/
def averageDensity (r : LDensResults) : List ℚ :=
  ((r.x.mass_density.zipWith (fun a b => a + b) r.y.mass_density).zipWith
      (fun a b => a + b) r.z.mass_density).map (fun a => a / 3)

/-- The x-data of the four traces the linear-density block plots: X, Y and
Z use their own bin edges, and the Average trace is plotted over the z bin
edges. -/
def ldensPlottedX (r : LDensResults) : List (List ℚ) :=
  [r.x.hist_bin_edges, r.y.hist_bin_edges, r.z.hist_bin_edges, r.z.hist_bin_edges]

theorem zipWith_map_same {α β γ δ : Type} (op : β → γ → δ) (f : α → β) (g : α → γ)
    (l : List α) :
    List.zipWith op (l.map f) (l.map g) = l.map (fun a => op (f a) (g a)) := by
  induction l with
  | nil => rfl
  | cons a t ih => simp [ih]

/-- C7: the Average series of the linear-density block equals the
elementwise mean (x + y + z) / 3 of the three per-axis mass-density series
at every bin, and the block plots four series (X, Y, Z, Average) whose
x-data all have the same bin-edge count. -/
theorem ldens_average_elementwise (L : ℚ) (dens : Fin 3 → ℕ → ℚ) :
    ((averageDensity (linearDensity L dens)).length = nbinsOf L ∧
      ∀ i, i < nbinsOf L →
        (averageDensity (linearDensity L dens)).getD i 0
          = ((linearDensity L dens).x.mass_density.getD i 0
              + (linearDensity L dens).y.mass_density.getD i 0
              + (linearDensity L dens).z.mass_density.getD i 0) / 3) ∧
    (ldensPlottedX (linearDensity L dens)).length = 4 ∧
    (∀ xs ∈ ldensPlottedX (linearDensity L dens), xs.length = nbinsOf L + 1) := by
  have havg : averageDensity (linearDensity L dens)
      = (List.range (nbinsOf L)).map (fun i => (dens 0 i + dens 1 i + dens 2 i) / 3) := by
    unfold averageDensity linearDensity
    rw [zipWith_map_same, zipWith_map_same, List.map_map]
    rfl
  refine ⟨⟨by simp [havg], ?_⟩, rfl, ?_⟩
  · intro i hi
    rw [havg]
    simp [linearDensity, List.getD, List.getElem?_map, List.getElem?_range, hi]
  · intro xs hxs
    simp only [ldensPlottedX, List.mem_cons, List.not_mem_nil, or_false] at hxs
    rcases hxs with rfl | rfl | rfl | rfl <;> simp [linearDensity]

/-- Witness for C7 with box edge 0.5 Å (5 bins) and a concrete density
profile, evaluated at bin 2. -/
theorem ldens_average_elementwise_witness :
    (averageDensity (linearDensity (1 / 2) (fun _ i => (i : ℚ)))).getD 2 0
      = ((linearDensity (1 / 2) (fun _ i => (i : ℚ))).x.mass_density.getD 2 0
          + (linearDensity (1 / 2) (fun _ i => (i : ℚ))).y.mass_density.getD 2 0
          + (linearDensity (1 / 2) (fun _ i => (i : ℚ))).z.mass_density.getD 2 0) / 3 ∧
    (ldensPlottedX (linearDensity (1 / 2) (fun _ i => (i : ℚ)))).length = 4 :=
  ⟨(ldens_average_elementwise (1 / 2) (fun _ i => (i : ℚ))).1.2 2
      (by norm_num [nbinsOf, binsize]),
   (ldens_average_elementwise (1 / 2) (fun _ i => (i : ℚ))).2.1⟩

end Tamagotchi
